import Mathlib

/-
  Verification development for the HouseMate household cost-sharing app.

  Part A embeds the authentication service that is present in the repository
  (frontend/services/auth.types.ts and the authentication service module):
  `toAuthUser`, `isValidEmail`, `isValidPassword`, and the validation prefixes
  of `registerWithEmail` / `loginWithEmail`.  JavaScript strings are modelled
  as `List Char`; the asynchronous Firebase calls that follow successful
  validation are modelled as an action value (`createAccount` / `signIn`)
  describing the external call the service would issue.

  Part B models the rotation-and-settlement ledger core (Rota Tracker,
  Purchase Recorder, Balance Ledger, Settlement Engine).  That core is not
  implemented in the repository (only planning documents describe it), so
  every definition in Part B is modelled from the specification text.
-/

namespace HouseMate

/-! ## Part A: authentication service (embedded from the repository code) -/

/-- The subset of the Firebase `User` object that the service reads, plus two
representative fields (`refreshToken`, `metadataCreationTime`) that a Firebase
user carries but `toAuthUser` must not copy. -/
structure FirebaseUser where
  uid : List Char
  email : Option (List Char)
  displayName : Option (List Char)
  emailVerified : Bool
  photoURL : Option (List Char)
  refreshToken : List Char
  metadataCreationTime : Option (List Char)
  deriving Repr, DecidableEq

/-- Structure `AuthUser` from auth.types.ts: exactly five fields. -/
structure AuthUser where
  uid : List Char
  email : Option (List Char)
  displayName : Option (List Char)
  emailVerified : Bool
  photoURL : Option (List Char)
  deriving Repr, DecidableEq

/-- Function `toAuthUser` from auth.types.ts: `null` maps to `null`; otherwise the five
public fields are copied. -/
def toAuthUser : Option FirebaseUser → Option AuthUser
  | none => none
  | some u =>
      some { uid := u.uid, email := u.email, displayName := u.displayName,
             emailVerified := u.emailVerified, photoURL := u.photoURL }

/-- Structure `RegisterCredentials` from auth.types.ts. -/
structure RegisterCredentials where
  email : List Char
  password : List Char
  displayName : List Char
  deriving Repr, DecidableEq

/-- Structure `LoginCredentials` from auth.types.ts. -/
structure LoginCredentials where
  email : List Char
  password : List Char
  deriving Repr, DecidableEq

/-- The character class `\s` of a JavaScript regular expression (the
whitespace characters recognised by `\s` and by `String.prototype.trim`). -/
def isJsSpace (c : Char) : Bool :=
  c == ' ' || c == '\t' || c == '\n' || c == '\r' || c == '\x0b' || c == '\x0c' ||
  c == '\u00a0' || c == '\u1680' || ('\u2000' ≤ c && c ≤ '\u200a') ||
  c == '\u2028' || c == '\u2029' || c == '\u202f' || c == '\u205f' ||
  c == '\u3000' || c == '\ufeff'

/-- The character class `[^\s@]` used by the email regular expression. -/
def emailChar (c : Char) : Bool :=
  !(isJsSpace c) && !(c == '@')

/-- Does the list contain a `'.'` that is neither its first nor its last
element?  Used to express `[^\s@]+\.[^\s@]+` over the domain part. -/
def hasInteriorDot (l : List Char) : Bool :=
  ((l.drop 1).dropLast).contains '.'

/-- Function `isValidEmail` from the authentication service: the test
`/^[^\s@]+@[^\s@]+\.[^\s@]+$/.test(email)`.  A string matches exactly when it
decomposes as `local ++ '@' ++ m ++ '.' ++ r` with `local`, `m`, `r` non-empty
and made of characters that are neither whitespace nor `'@'`; since `'@'`
cannot occur in any of the three parts, the `'@'` of the decomposition is the
first `'@'` of the string, and the matcher splits there. -/
def isValidEmail (s : List Char) : Bool :=
  let loc := s.takeWhile (fun c => !(c == '@'))
  let rest := s.dropWhile (fun c => !(c == '@'))
  match rest with
  | [] => false
  | _ :: domain =>
      !loc.isEmpty && loc.all emailChar && domain.all emailChar &&
        hasInteriorDot domain

/-- The email pattern stated declaratively: at least one non-space non-`'@'`
character, then `'@'`, then such characters, then `'.'`, then such
characters. -/
def EmailPattern (s : List Char) : Prop :=
  ∃ l m r : List Char, l ≠ [] ∧ m ≠ [] ∧ r ≠ [] ∧
    (∀ c ∈ l, emailChar c = true) ∧ (∀ c ∈ m, emailChar c = true) ∧
    (∀ c ∈ r, emailChar c = true) ∧ s = l ++ '@' :: (m ++ '.' :: r)

/-- Does the password contain a character matching `/[A-Z]/`? -/
def hasUpper (p : List Char) : Bool :=
  p.any fun c => 'A' ≤ c && c ≤ 'Z'

/-- Does the password contain a character matching `/[a-z]/`? -/
def hasLower (p : List Char) : Bool :=
  p.any fun c => 'a' ≤ c && c ≤ 'z'

/-- Does the password contain a character matching `/[0-9]/`? -/
def hasDigit (p : List Char) : Bool :=
  p.any fun c => '0' ≤ c && c ≤ '9'

/-- Result type of `isValidPassword` (`{ valid: boolean; message?: string }`). -/
structure PasswordCheck where
  valid : Bool
  message : Option String
  deriving Repr, DecidableEq

/-- Function `isValidPassword` from the authentication service: minimum 8 characters,
at least one uppercase letter, one lowercase letter, one digit, checked in
that order with the first failing rule producing the message. -/
def isValidPassword (password : List Char) : PasswordCheck :=
  if password.length < 8 then
    { valid := false, message := some "Password must be at least 8 characters long" }
  else if hasUpper password = false then
    { valid := false, message := some "Password must contain at least one uppercase letter" }
  else if hasLower password = false then
    { valid := false, message := some "Password must contain at least one lowercase letter" }
  else if hasDigit password = false then
    { valid := false, message := some "Password must contain at least one number" }
  else
    { valid := true, message := none }

/-- JavaScript `String.prototype.trim`: strip JavaScript whitespace from both ends. -/
def jsTrim (s : List Char) : List Char :=
  ((s.dropWhile isJsSpace).reverse.dropWhile isJsSpace).reverse

/-- Outcome of the synchronous validation prefix of `registerWithEmail`:
either an early rejection `{ user: null, error: { code, message } }`, or the
external account-creation call that the service proceeds to issue. -/
inductive RegisterAction where
  | reject (code : String) (message : String)
  | createAccount (email : List Char) (password : List Char) (displayName : List Char)
  deriving Repr, DecidableEq

/-- Function `registerWithEmail`, validation prefix: empty-field check, email format,
password strength, display-name length (after trimming), in source order.
On success the service calls `createUserWithEmailAndPassword` and sets the
trimmed display name. -/
def registerWithEmail (c : RegisterCredentials) : RegisterAction :=
  if c.email = [] ∨ c.password = [] ∨ c.displayName = [] then
    .reject "invalid-input" "All fields are required"
  else if isValidEmail c.email = false then
    .reject "invalid-email" "Please enter a valid email address"
  else if (isValidPassword c.password).valid = false then
    .reject "invalid-password" (((isValidPassword c.password).message).getD "Invalid password")
  else if (jsTrim c.displayName).length < 2 then
    .reject "invalid-name" "Name must be at least 2 characters"
  else
    .createAccount c.email c.password (jsTrim c.displayName)

/-- Outcome of the synchronous validation prefix of `loginWithEmail`: either
an early rejection, or the external `signInWithEmailAndPassword` call. -/
inductive LoginAction where
  | reject (code : String) (message : String)
  | signIn (email : List Char) (password : List Char)
  deriving Repr, DecidableEq

/-- Function `loginWithEmail`, validation prefix: empty-field check then email format,
in source order. -/
def loginWithEmail (c : LoginCredentials) : LoginAction :=
  if c.email = [] ∨ c.password = [] then
    .reject "invalid-input" "Email and password are required"
  else if isValidEmail c.email = false then
    .reject "invalid-email" "Please enter a valid email address"
  else
    .signIn c.email c.password

/-! ## Part B: rotation-and-settlement ledger core (modelled from the spec) -/

/-- Modelled from the spec: error taxonomy of the ledger core (§7), which is
not implemented in the repository.  `preconditionViolated` stands for the
rejection of a call that violates a stated precondition (member not in the
household, inactive or unknown item, stale period) for which the taxonomy
names no dedicated error. -/
inductive LedgerError where
  | invalidRotaState
  | memberNotInRota
  | purchaseConflict
  | notAuthorized
  | alreadySettled
  | preconditionViolated
  deriving Repr, DecidableEq

/-- Modelled from the spec: `Household` (§3) — id, admin member id, members,
current accounting-period start time.  Member ids are natural numbers. -/
structure Household where
  id : Nat
  adminId : Nat
  members : List Nat
  currentPeriodStart : Nat
  deriving Repr, DecidableEq

/-- Modelled from the spec: `RotaItem` (§3) — rotation order and current-turn
pointer for one shared item. -/
structure RotaItem where
  id : Nat
  householdId : Nat
  name : List Char
  rotaOrder : List Nat
  currentTurnIndex : Nat
  active : Bool
  deriving Repr, DecidableEq

/-- Modelled from the spec: `Purchase` (§3) — immutable record of one purchase
event; `settlementId` is `none` while the period is open. -/
structure Purchase where
  id : Nat
  householdId : Nat
  itemId : Nat
  purchasedBy : Nat
  expectedBy : Nat
  amount : Nat
  timestamp : Nat
  settlementId : Option Nat
  deriving Repr, DecidableEq

/-- Modelled from the spec: `BalanceEntry` (§3) — one per member per open
period.  The persisted layout in the planning documents stores `netBalance`
alongside its two inputs, so the model stores it too and the no-drift rule is
proved as an invariant of the reachable states. -/
structure BalanceEntry where
  totalPurchased : Nat
  expectedPurchases : Nat
  netBalance : Int
  lastUpdated : Nat
  deriving Repr, DecidableEq

/-- Modelled from the spec: `Settlement` (§3) — immutable snapshot closing an
accounting period. -/
structure Settlement where
  id : Nat
  householdId : Nat
  periodStart : Nat
  periodEnd : Nat
  settledBy : Nat
  settledAt : Nat
  finalBalances : List (Nat × BalanceEntry)
  adjustedRent : List (Nat × Int)
  totalTransactions : Nat
  deriving Repr, DecidableEq

/-- Modelled from the spec: the per-household persisted state (§6) —
`rotaItems` keyed by item id, the append-only `purchases` and `settlements`
logs, and the per-member balance map for the open period. -/
structure LedgerState where
  household : Household
  rotaItems : Nat → Option RotaItem
  purchases : List Purchase
  balances : Nat → BalanceEntry
  settlements : List Settlement

/-- Modelled from the spec: Rota Tracker `currentBuyer` (§4.1) — returns
`rotaOrder[currentTurnIndex]`, failing with `InvalidRotaState` when
`rotaOrder` is empty.  Indexing uses a default-valued lookup; under the data
model invariant `currentTurnIndex < length rotaOrder` it is the true list
index. -/
def currentBuyer (item : RotaItem) : Except LedgerError Nat :=
  match item.rotaOrder with
  | [] => .error .invalidRotaState
  | _ :: _ => .ok (item.rotaOrder.getD item.currentTurnIndex 0)

/-- Modelled from the spec: Rota Tracker `advance` (§4.1) — a copy of the item
with `currentTurnIndex = (currentTurnIndex + 1) mod length rotaOrder`. -/
def advance (item : RotaItem) : RotaItem :=
  { item with currentTurnIndex := (item.currentTurnIndex + 1) % item.rotaOrder.length }

/-- Modelled from the spec: Balance Ledger `applyDelta` (§4.3) — additive
update of one member's entry; `netBalance` is recomputed from the two totals,
never adjusted independently. -/
def applyDelta (bs : Nat → BalanceEntry) (member : Nat)
    (totalPurchasedDelta : Nat) (expectedPurchasesDelta : Nat) (ts : Nat) :
    Nat → BalanceEntry :=
  fun m =>
    if m = member then
      let b := bs member
      let total := b.totalPurchased + totalPurchasedDelta
      let expected := b.expectedPurchases + expectedPurchasesDelta
      { totalPurchased := total, expectedPurchases := expected,
        netBalance := (total : Int) - (expected : Int), lastUpdated := ts }
    else bs m

/-- Modelled from the spec: Purchase Recorder `recordPurchase` (§4.2) — looks
up the item, checks the preconditions (member belongs to the household, item
active), computes `expectedBy = currentBuyer item`, creates the `Purchase`,
persists `advance item`, and applies the balance delta: `expectedBy`'s
`expectedPurchases` and `purchasedBy`'s `totalPurchased` each grow by
`amount`.  A failing call returns the state unchanged. -/
def recordPurchase (s : LedgerState) (itemId member amount timestamp : Nat) :
    Option LedgerError × LedgerState :=
  match s.rotaItems itemId with
  | none => (some .preconditionViolated, s)
  | some item =>
      if member ∈ s.household.members ∧ item.active = true then
        match currentBuyer item with
        | .error e => (some e, s)
        | .ok expectedBy =>
            let purchase : Purchase :=
              { id := s.purchases.length, householdId := s.household.id,
                itemId := itemId, purchasedBy := member, expectedBy := expectedBy,
                amount := amount, timestamp := timestamp, settlementId := none }
            let item' := advance item
            let balances' :=
              applyDelta (applyDelta s.balances expectedBy 0 amount timestamp)
                member amount 0 timestamp
            (none,
              { s with
                rotaItems := fun k => if k = itemId then some item' else s.rotaItems k,
                purchases := purchase :: s.purchases,
                balances := balances' })
      else (some .preconditionViolated, s)

/-- One purchase request: which item, which member paid, the amount, and the
timestamp. -/
structure PurchaseEvent where
  itemId : Nat
  member : Nat
  amount : Nat
  timestamp : Nat
  deriving Repr, DecidableEq

/-- Apply one purchase request to the state, keeping the old state when the
call fails. -/
def step (s : LedgerState) (e : PurchaseEvent) : LedgerState :=
  (recordPurchase s e.itemId e.member e.amount e.timestamp).2

/-- Run a sequence of purchase requests. -/
def run (s : LedgerState) (evs : List PurchaseEvent) : LedgerState :=
  evs.foldl step s

/-- The no-drift invariant: every stored `netBalance` equals
`totalPurchased − expectedPurchases`. -/
def balancesConsistent (s : LedgerState) : Prop :=
  ∀ m : Nat, (s.balances m).netBalance =
    ((s.balances m).totalPurchased : Int) - ((s.balances m).expectedPurchases : Int)

/-- Modelled from the spec: Settlement Engine close (§4.4).  The request
carries the start time `p` of the period the caller intends to close (the
caller's observed `currentPeriodStart`); the Document Store's insert-if-absent
on the `Settlement` keyed by that period enforces `AlreadySettled` (§6).
Steps in order: admin check, already-settled check, freshness check, then
atomically: snapshot balances, compute `adjustedRent = baseRent − netBalance`
per member, write the `Settlement`, stamp the open purchases with its id,
zero every balance, and advance `currentPeriodStart` to the settlement
timestamp.  A failing call returns the state unchanged. -/
def closeSettlement (baseRent : Nat → Int) (s : LedgerState)
    (caller p ts : Nat) : Option LedgerError × LedgerState :=
  if caller = s.household.adminId then
    if s.settlements.any (fun st => st.periodStart == p) then
      (some .alreadySettled, s)
    else if p = s.household.currentPeriodStart then
      let sid := s.settlements.length
      let snapshot := s.household.members.map (fun m => (m, s.balances m))
      let adjusted := s.household.members.map
        (fun m => (m, baseRent m - (s.balances m).netBalance))
      let openCount := (s.purchases.filter (fun pu => pu.settlementId.isNone)).length
      let settlement : Settlement :=
        { id := sid, householdId := s.household.id, periodStart := p,
          periodEnd := ts, settledBy := caller, settledAt := ts,
          finalBalances := snapshot, adjustedRent := adjusted,
          totalTransactions := openCount }
      (none,
        { household := { s.household with currentPeriodStart := ts },
          rotaItems := s.rotaItems,
          purchases := s.purchases.map
            (fun pu => if pu.settlementId.isNone then
              { pu with settlementId := some sid } else pu),
          balances := fun _ =>
            { totalPurchased := 0, expectedPurchases := 0, netBalance := 0,
              lastUpdated := ts },
          settlements := settlement :: s.settlements })
    else (some .preconditionViolated, s)
  else (some .notAuthorized, s)

/-! Concrete fixtures used by the witness theorems. -/

/-- A concrete per-member base rent share. -/
def baseRentW : Nat → Int := fun _ => 100

/-- A concrete three-member rota item. -/
def itemW : RotaItem :=
  { id := 1, householdId := 1, name := [], rotaOrder := [2, 5, 7],
    currentTurnIndex := 0, active := true }

/-- A concrete fresh ledger state holding `itemW`. -/
def stateW : LedgerState :=
  { household := { id := 1, adminId := 1, members := [1, 2, 5, 7], currentPeriodStart := 0 },
    rotaItems := fun k => if k = 1 then some itemW else none,
    purchases := [],
    balances := fun _ =>
      { totalPurchased := 0, expectedPurchases := 0, netBalance := 0, lastUpdated := 0 },
    settlements := [] }

/-- A concrete purchase request against `stateW`. -/
def evW : PurchaseEvent := { itemId := 1, member := 2, amount := 10, timestamp := 3 }

/-- The state after recording `evW` on `stateW`. -/
def stateW1 : LedgerState := (recordPurchase stateW 1 2 10 3).2

/-- The state after the admin closes the period of `stateW`. -/
def stateW2 : LedgerState := (closeSettlement baseRentW stateW 1 0 7).2

/-! ## Theorems -/

/-- C8: `toAuthUser` returns `null` iff its argument is `null`; on a non-null
user it returns the record of exactly the five fields `uid`, `email`,
`displayName`, `emailVerified`, `photoURL` copied from the input, and no other
field of the input (`refreshToken`, `metadata`) influences the result. -/
theorem claim8_toAuthUser_spec :
    (∀ u : Option FirebaseUser, toAuthUser u = none ↔ u = none) ∧
    (∀ fu : FirebaseUser, toAuthUser (some fu) =
      some { uid := fu.uid, email := fu.email, displayName := fu.displayName,
             emailVerified := fu.emailVerified, photoURL := fu.photoURL }) ∧
    (∀ (fu : FirebaseUser) (rt : List Char) (mt : Option (List Char)),
      toAuthUser (some { fu with refreshToken := rt, metadataCreationTime := mt }) =
        toAuthUser (some fu)) := by
  refine ⟨?_, ?_, ?_⟩
  · intro u; cases u <;> simp [toAuthUser]
  · intro fu; rfl
  · intro fu rt mt; rfl

/-- C3: for every `RotaItem` with non-empty `rotaOrder` and valid
`currentTurnIndex`, `advance` returns a copy whose `currentTurnIndex` is
`(currentTurnIndex + 1) % length rotaOrder`, leaving every other field
unchanged; as a Lean function it is pure and has no side effects. -/
theorem claim3_advance_spec (item : RotaItem)
    (hne : item.rotaOrder ≠ [])
    (hidx : item.currentTurnIndex < item.rotaOrder.length) :
    (advance item).currentTurnIndex = (item.currentTurnIndex + 1) % item.rotaOrder.length ∧
    (advance item).id = item.id ∧
    (advance item).householdId = item.householdId ∧
    (advance item).name = item.name ∧
    (advance item).rotaOrder = item.rotaOrder ∧
    (advance item).active = item.active :=
  ⟨rfl, rfl, rfl, rfl, rfl, rfl⟩

/-- Witness for C3 at a concrete item. -/
theorem claim3_advance_spec_witness :
    (advance itemW).currentTurnIndex = (itemW.currentTurnIndex + 1) % itemW.rotaOrder.length ∧
    (advance itemW).id = itemW.id ∧
    (advance itemW).householdId = itemW.householdId ∧
    (advance itemW).name = itemW.name ∧
    (advance itemW).rotaOrder = itemW.rotaOrder ∧
    (advance itemW).active = itemW.active :=
  claim3_advance_spec itemW (by decide) (by decide)

/-- On a non-empty rota, `currentBuyer` returns the default-valued lookup. -/
theorem currentBuyer_of_ne_nil (item : RotaItem) (hne : item.rotaOrder ≠ []) :
    currentBuyer item = Except.ok (item.rotaOrder.getD item.currentTurnIndex 0) := by
  unfold currentBuyer
  rcases hor : item.rotaOrder with _ | ⟨a, l⟩
  · exact absurd hor hne
  · simp only [hor]

/-- C7: `currentBuyer` returns `rotaOrder[currentTurnIndex]` (when the index
is valid, as the data model guarantees), and fails with `InvalidRotaState`
exactly when `rotaOrder` is empty. -/
theorem claim7_currentBuyer_spec (item : RotaItem) :
    (∀ h : item.currentTurnIndex < item.rotaOrder.length,
      currentBuyer item = Except.ok (item.rotaOrder.get ⟨item.currentTurnIndex, h⟩)) ∧
    (currentBuyer item = Except.error LedgerError.invalidRotaState ↔
      item.rotaOrder = []) := by
  constructor
  · intro h
    have hne : item.rotaOrder ≠ [] :=
      List.ne_nil_of_length_pos (Nat.lt_of_le_of_lt (Nat.zero_le _) h)
    rw [currentBuyer_of_ne_nil item hne]
    congr 1
    rw [List.getD_eq_getElem?_getD, List.getElem?_eq_getElem h]
    simp [List.get_eq_getElem]
  · rcases hor : item.rotaOrder with _ | ⟨a, l⟩
    · simp [currentBuyer, hor]
    · rw [currentBuyer_of_ne_nil item (by rw [hor]; simp)]
      simp [hor]

/-- Witness for C7 at a concrete item. -/
theorem claim7_currentBuyer_spec_witness :
    currentBuyer itemW =
      Except.ok (itemW.rotaOrder.get ⟨itemW.currentTurnIndex, by decide⟩) ∧
    currentBuyer itemW ≠ Except.error LedgerError.invalidRotaState :=
  ⟨(claim7_currentBuyer_spec itemW).1 (by decide),
   fun h => absurd ((claim7_currentBuyer_spec itemW).2.mp h) (by decide)⟩

/-- C6: a settlement close by a caller who is not the household admin fails
with `NotAuthorized` and returns the entire ledger state unchanged: no
balance, rota item, settlement or purchase is created or modified. -/
theorem claim6_close_not_admin (baseRent : Nat → Int) (s : LedgerState)
    (caller p ts : Nat) (h : caller ≠ s.household.adminId) :
    closeSettlement baseRent s caller p ts = (some LedgerError.notAuthorized, s) ∧
    (closeSettlement baseRent s caller p ts).2.balances = s.balances ∧
    (closeSettlement baseRent s caller p ts).2.rotaItems = s.rotaItems ∧
    (closeSettlement baseRent s caller p ts).2.settlements = s.settlements ∧
    (closeSettlement baseRent s caller p ts).2.purchases = s.purchases := by
  have hmain : closeSettlement baseRent s caller p ts = (some LedgerError.notAuthorized, s) := by
    unfold closeSettlement
    rw [if_neg h]
  exact ⟨hmain, by rw [hmain], by rw [hmain], by rw [hmain], by rw [hmain]⟩

/-- Successful `recordPurchase` computes exactly the state prescribed by
§4.2: the purchase is appended, the advanced item is persisted, and the two
balance increments are applied. -/
theorem recordPurchase_success_state (s : LedgerState)
    (itemId member amount ts : Nat) (item : RotaItem) (expectedBy : Nat)
    (hitem : s.rotaItems itemId = some item)
    (hmem : member ∈ s.household.members) (hact : item.active = true)
    (hbuyer : currentBuyer item = Except.ok expectedBy) :
    recordPurchase s itemId member amount ts =
      (none,
        { household := s.household,
          rotaItems := fun k => if k = itemId then some (advance item) else s.rotaItems k,
          purchases :=
            { id := s.purchases.length, householdId := s.household.id,
              itemId := itemId, purchasedBy := member, expectedBy := expectedBy,
              amount := amount, timestamp := ts, settlementId := none } :: s.purchases,
          balances := applyDelta (applyDelta s.balances expectedBy 0 amount ts)
            member amount 0 ts,
          settlements := s.settlements }) := by
  unfold recordPurchase
  simp only [hitem]
  rw [if_pos ⟨hmem, hact⟩]
  simp only [hbuyer]

/-- A failed or successful `recordPurchase` whose result is `(none, s')`
yields balances obtained by the two `applyDelta` increments. -/
theorem recordPurchase_ok_balances (s : LedgerState)
    (itemId member amount ts : Nat) (item : RotaItem) (expectedBy : Nat)
    (s' : LedgerState)
    (hitem : s.rotaItems itemId = some item)
    (hbuyer : currentBuyer item = Except.ok expectedBy)
    (hrec : recordPurchase s itemId member amount ts = (none, s')) :
    s'.balances =
      applyDelta (applyDelta s.balances expectedBy 0 amount ts) member amount 0 ts := by
  unfold recordPurchase at hrec
  simp only [hitem] at hrec
  by_cases hcond : member ∈ s.household.members ∧ item.active = true
  · rw [if_pos hcond] at hrec
    simp only [hbuyer] at hrec
    have h2 := congrArg Prod.snd hrec
    simp only at h2
    rw [← h2]
  · rw [if_neg hcond] at hrec
    exact absurd (congrArg Prod.fst hrec) (by simp)

/-- Effect of the two §4.2 increments on `expectedPurchases`, member by
member. -/
theorem applyDelta2_expected (bs : Nat → BalanceEntry)
    (e member amount ts m : Nat) :
    ((applyDelta (applyDelta bs e 0 amount ts) member amount 0 ts) m).expectedPurchases =
      (bs m).expectedPurchases + (if m = e then amount else 0) := by
  unfold applyDelta
  by_cases h1 : m = member
  · subst h1
    by_cases h2 : m = e
    · subst h2; simp
    · simp [h2]
  · by_cases h2 : m = e
    · subst h2; simp [h1]
    · simp [h1, h2]

/-- Effect of the two §4.2 increments on `totalPurchased`, member by
member. -/
theorem applyDelta2_total (bs : Nat → BalanceEntry)
    (e member amount ts m : Nat) :
    ((applyDelta (applyDelta bs e 0 amount ts) member amount 0 ts) m).totalPurchased =
      (bs m).totalPurchased + (if m = member then amount else 0) := by
  unfold applyDelta
  by_cases h1 : m = member
  · subst h1
    by_cases h2 : m = e
    · subst h2; simp
    · simp [h2]
  · by_cases h2 : m = e
    · subst h2; simp [h1]
    · simp [h1, h2]

/-- C2: one successful `recordPurchase` adds `amount` to `expectedBy`'s
`expectedPurchases` and to `purchasedBy`'s `totalPurchased` and changes no
other entry, so the deltas summed over any set of members containing the
affected one equal `amount`; when `purchasedBy = expectedBy` both increments
hit the same entry and every net balance is unchanged. -/
theorem claim2_purchase_conservation (s : LedgerState)
    (itemId member amount ts : Nat) (item : RotaItem) (expectedBy : Nat)
    (s' : LedgerState)
    (hitem : s.rotaItems itemId = some item)
    (hbuyer : currentBuyer item = Except.ok expectedBy)
    (hrec : recordPurchase s itemId member amount ts = (none, s')) :
    (∀ m, (s'.balances m).expectedPurchases =
      (s.balances m).expectedPurchases + (if m = expectedBy then amount else 0)) ∧
    (∀ m, (s'.balances m).totalPurchased =
      (s.balances m).totalPurchased + (if m = member then amount else 0)) ∧
    (∀ t : Finset Nat, expectedBy ∈ t →
      Finset.sum t (fun m =>
        (s'.balances m).expectedPurchases - (s.balances m).expectedPurchases) = amount) ∧
    (∀ t : Finset Nat, member ∈ t →
      Finset.sum t (fun m =>
        (s'.balances m).totalPurchased - (s.balances m).totalPurchased) = amount) ∧
    (member = expectedBy → balancesConsistent s →
      ∀ m, (s'.balances m).netBalance = (s.balances m).netBalance) := by
  have hb := recordPurchase_ok_balances s itemId member amount ts item expectedBy s'
    hitem hbuyer hrec
  have hexp : ∀ m, (s'.balances m).expectedPurchases =
      (s.balances m).expectedPurchases + (if m = expectedBy then amount else 0) := by
    intro m; rw [hb]; exact applyDelta2_expected s.balances expectedBy member amount ts m
  have htot : ∀ m, (s'.balances m).totalPurchased =
      (s.balances m).totalPurchased + (if m = member then amount else 0) := by
    intro m; rw [hb]; exact applyDelta2_total s.balances expectedBy member amount ts m
  refine ⟨hexp, htot, ?_, ?_, ?_⟩
  · intro t ht
    have : (fun m => (s'.balances m).expectedPurchases - (s.balances m).expectedPurchases) =
        (fun m => if m = expectedBy then amount else 0) := by
      funext m; rw [hexp m]; omega
    rw [this, Finset.sum_ite_eq' t expectedBy (fun _ => amount), if_pos ht]
  · intro t ht
    have : (fun m => (s'.balances m).totalPurchased - (s.balances m).totalPurchased) =
        (fun m => if m = member then amount else 0) := by
      funext m; rw [htot m]; omega
    rw [this, Finset.sum_ite_eq' t member (fun _ => amount), if_pos ht]
  · intro heq hcons m
    rw [hb]
    unfold applyDelta
    subst heq
    by_cases hm : m = member
    · subst hm
      simp only [if_pos rfl]
      have := hcons m
      simp only [this]
      push_cast
      ring
    · simp [hm]

/-- Witness for C2: recording a concrete purchase of amount 10 by member 2
(who is also the expected buyer) on `stateW`. -/
theorem claim2_purchase_conservation_witness :
    (∀ m, (stateW1.balances m).expectedPurchases =
      (stateW.balances m).expectedPurchases + (if m = 2 then 10 else 0)) ∧
    (∀ m, (stateW1.balances m).totalPurchased =
      (stateW.balances m).totalPurchased + (if m = 2 then 10 else 0)) ∧
    (∀ t : Finset Nat, 2 ∈ t →
      Finset.sum t (fun m =>
        (stateW1.balances m).expectedPurchases - (stateW.balances m).expectedPurchases) = 10) ∧
    (∀ t : Finset Nat, 2 ∈ t →
      Finset.sum t (fun m =>
        (stateW1.balances m).totalPurchased - (stateW.balances m).totalPurchased) = 10) ∧
    ((2 : Nat) = 2 → balancesConsistent stateW →
      ∀ m, (stateW1.balances m).netBalance = (stateW.balances m).netBalance) :=
  claim2_purchase_conservation stateW 1 2 10 3 itemW 2 stateW1 rfl rfl rfl

/-- One purchase step preserves the no-drift balance invariant. -/
theorem step_preserves_consistent (s : LedgerState) (e : PurchaseEvent)
    (h : balancesConsistent s) : balancesConsistent (step s e) := by
  unfold step recordPurchase
  rcases hit : s.rotaItems e.itemId with _ | item
  · simp only [hit]; exact h
  · simp only [hit]
    by_cases hcond : e.member ∈ s.household.members ∧ item.active = true
    · rw [if_pos hcond]
      rcases hbuy : currentBuyer item with err | expectedBy
      · simp only [hbuy]; exact h
      · simp only [hbuy]
        intro m
        unfold applyDelta
        by_cases h1 : m = e.member
        · simp [h1]
        · by_cases h2 : m = expectedBy
          · subst h2; simp [h1]
          · simp [h1, h2, h m]
    · rw [if_neg hcond]; exact h

/-- C1: in an open period, after any sequence of `recordPurchase` operations
from a state whose balances satisfy
`netBalance = totalPurchased − expectedPurchases`, every member's stored
`netBalance` still equals `totalPurchased − expectedPurchases`: the two
increments of §4.2 always recompute it, so it can never drift. -/
theorem claim1_netBalance_invariant (s : LedgerState) (evs : List PurchaseEvent)
    (h : balancesConsistent s) : balancesConsistent (run s evs) := by
  induction evs generalizing s with
  | nil => exact h
  | cons e rest ih => exact ih (step s e) (step_preserves_consistent s e h)

/-- Witness for C1: the invariant holds after a concrete purchase on a fresh
state. -/
theorem claim1_netBalance_invariant_witness :
    balancesConsistent (run stateW [evW]) :=
  claim1_netBalance_invariant stateW [evW] (fun _ => rfl)

/-- Running purchase requests against an item (with members of the household)
advances its turn index by one per purchase, modulo the rota length, and
changes nothing else about the item. -/
theorem run_rota_advances (itemId : Nat) :
    ∀ (evs : List PurchaseEvent) (s : LedgerState) (it : RotaItem),
    s.rotaItems itemId = some it → it.active = true → it.rotaOrder ≠ [] →
    it.currentTurnIndex < it.rotaOrder.length →
    (∀ e ∈ evs, e.itemId = itemId ∧ e.member ∈ s.household.members) →
    ∃ it', (run s evs).rotaItems itemId = some it' ∧
      it'.rotaOrder = it.rotaOrder ∧ it'.active = true ∧
      it'.currentTurnIndex = (it.currentTurnIndex + evs.length) % it.rotaOrder.length ∧
      it'.currentTurnIndex < it.rotaOrder.length := by
  intro evs
  induction evs with
  | nil =>
    intro s it h1 h2 h3 h4 _
    exact ⟨it, h1, rfl, h2, by simp [Nat.mod_eq_of_lt h4], h4⟩
  | cons e rest ih =>
    intro s it h1 h2 h3 h4 h5
    obtain ⟨hei, hmem⟩ := h5 e (List.mem_cons_self e rest)
    have h1e : s.rotaItems e.itemId = some it := by rw [hei]; exact h1
    have hbuy := currentBuyer_of_ne_nil it h3
    have hstep : step s e =
        { household := s.household,
          rotaItems := fun k => if k = e.itemId then some (advance it) else s.rotaItems k,
          purchases :=
            { id := s.purchases.length, householdId := s.household.id,
              itemId := e.itemId, purchasedBy := e.member,
              expectedBy := it.rotaOrder.getD it.currentTurnIndex 0,
              amount := e.amount, timestamp := e.timestamp, settlementId := none }
              :: s.purchases,
          balances := applyDelta
            (applyDelta s.balances (it.rotaOrder.getD it.currentTurnIndex 0) 0
              e.amount e.timestamp) e.member e.amount 0 e.timestamp,
          settlements := s.settlements } := by
      unfold step
      rw [recordPurchase_success_state s e.itemId e.member e.amount e.timestamp it
        (it.rotaOrder.getD it.currentTurnIndex 0) h1e hmem h2 hbuy]
    have hlen : 0 < it.rotaOrder.length := List.length_pos.mpr h3
    obtain ⟨it', ha, hb, hc, hd, he'⟩ := ih (step s e) (advance it)
      (by rw [hstep]; simp [hei])
      h2 h3 (Nat.mod_lt _ hlen)
      (by
        intro e' he'
        have := h5 e' (List.mem_cons_of_mem e he')
        rw [hstep]
        exact this)
    refine ⟨it', ?_, hb, hc, ?_, he'⟩
    · show (run (step s e) rest).rotaItems itemId = some it'
      exact ha
    · rw [hd]
      show ((it.currentTurnIndex + 1) % it.rotaOrder.length + rest.length) %
          it.rotaOrder.length =
        (it.currentTurnIndex + (e :: rest).length) % it.rotaOrder.length
      rw [Nat.mod_add_mod]
      congr 1
      simp [List.length_cons]
      omega

/-- C4: for every sequence of N purchases recorded against an item whose
`rotaOrder` is a three-member list `[A, B, C]` and whose `currentTurnIndex`
starts at 0, the item's `currentTurnIndex` after the N purchases equals
`N mod 3`, regardless of which member made each purchase. -/
theorem claim4_rota_mod3 (s : LedgerState) (itemId A B C : Nat)
    (it : RotaItem) (evs : List PurchaseEvent)
    (hitem : s.rotaItems itemId = some it)
    (hord : it.rotaOrder = [A, B, C]) (hidx : it.currentTurnIndex = 0)
    (hact : it.active = true)
    (hevs : ∀ e ∈ evs, e.itemId = itemId ∧ e.member ∈ s.household.members) :
    ∃ it', (run s evs).rotaItems itemId = some it' ∧
      it'.currentTurnIndex = evs.length % 3 := by
  obtain ⟨it', h1, _, _, h4, _⟩ := run_rota_advances itemId evs s it hitem hact
    (by rw [hord]; simp) (by rw [hord, hidx]; simp) hevs
  refine ⟨it', h1, ?_⟩
  rw [h4, hord, hidx]
  simp

/-- Witness for C4: two concrete purchases on `stateW` (whose rota is
`[2, 5, 7]` at index 0) leave the turn index at `2 % 3`. -/
theorem claim4_rota_mod3_witness :
    ∃ it', (run stateW [evW, evW]).rotaItems 1 = some it' ∧
      it'.currentTurnIndex = [evW, evW].length % 3 :=
  claim4_rota_mod3 stateW 1 2 5 7 itemW [evW, evW] rfl rfl rfl rfl (by decide)

/-- Witness for C6 at a concrete state and non-admin caller. -/
theorem claim6_close_not_admin_witness :
    closeSettlement baseRentW stateW 9 0 7 = (some LedgerError.notAuthorized, stateW) ∧
    (closeSettlement baseRentW stateW 9 0 7).2.balances = stateW.balances ∧
    (closeSettlement baseRentW stateW 9 0 7).2.rotaItems = stateW.rotaItems ∧
    (closeSettlement baseRentW stateW 9 0 7).2.settlements = stateW.settlements ∧
    (closeSettlement baseRentW stateW 9 0 7).2.purchases = stateW.purchases :=
  claim6_close_not_admin baseRentW stateW 9 0 7 (by decide)

/-- C5: closing the same open period twice in a row (both calls by the admin)
creates exactly one `Settlement` record: the first call succeeds and adds one
record, and the second call returns `AlreadySettled`, leaving the Balance
Ledger state completely unchanged. -/
theorem claim5_settlement_exactly_once (baseRent baseRent' : Nat → Int)
    (s s₁ : LedgerState) (caller p ts ts' : Nat)
    (h1 : closeSettlement baseRent s caller p ts = (none, s₁)) :
    s₁.settlements.length = s.settlements.length + 1 ∧
    closeSettlement baseRent' s₁ caller p ts' =
      (some LedgerError.alreadySettled, s₁) := by
  unfold closeSettlement at h1
  by_cases hadm : caller = s.household.adminId
  · rw [if_pos hadm] at h1
    by_cases hset : s.settlements.any (fun st => st.periodStart == p) = true
    · rw [if_pos hset] at h1
      exact absurd (congrArg Prod.fst h1) (by simp)
    · rw [if_neg hset] at h1
      by_cases hp : p = s.household.currentPeriodStart
      · rw [if_pos hp] at h1
        have hs1 := congrArg Prod.snd h1
        simp only at hs1
        subst hs1
        refine ⟨by simp, ?_⟩
        unfold closeSettlement
        rw [if_pos (by simpa using hadm)]
        rw [if_pos (by simp)]
      · rw [if_neg hp] at h1
        exact absurd (congrArg Prod.fst h1) (by simp)
  · rw [if_neg hadm] at h1
    exact absurd (congrArg Prod.fst h1) (by simp)

/-- Witness for C5: the admin closes the period of `stateW` and immediately
repeats the same close request. -/
theorem claim5_settlement_exactly_once_witness :
    stateW2.settlements.length = stateW.settlements.length + 1 ∧
    closeSettlement baseRentW stateW2 1 0 9 =
      (some LedgerError.alreadySettled, stateW2) :=
  claim5_settlement_exactly_once baseRentW baseRentW stateW stateW2 1 0 7 9 rfl

/-- A password failing any of the four strength rules is declared invalid. -/
theorem isValidPassword_invalid (p : List Char)
    (h : p.length < 8 ∨ hasUpper p = false ∨ hasLower p = false ∨
      hasDigit p = false) :
    (isValidPassword p).valid = false := by
  unfold isValidPassword
  split_ifs with h1 h2 h3 h4
  · rfl
  · rfl
  · rfl
  · rfl
  · rcases h with h | h | h | h
    · exact absurd h h1
    · exact absurd h h2
    · exact absurd h h3
    · exact absurd h h4

/-- C9: registration with a password shorter than 8 characters, or with no
uppercase letter, no lowercase letter, or no digit, is rejected with a
non-null error (`user = null`) before any account-creation call; conversely a
password satisfying all four rules passes the password validation. -/
theorem claim9_register_password (c : RegisterCredentials) :
    ((c.password.length < 8 ∨ hasUpper c.password = false ∨
        hasLower c.password = false ∨ hasDigit c.password = false) →
      ∃ code msg, registerWithEmail c = RegisterAction.reject code msg) ∧
    ((8 ≤ c.password.length ∧ hasUpper c.password = true ∧
        hasLower c.password = true ∧ hasDigit c.password = true) →
      (isValidPassword c.password).valid = true) := by
  constructor
  · intro h
    unfold registerWithEmail
    by_cases h1 : c.email = [] ∨ c.password = [] ∨ c.displayName = []
    · rw [if_pos h1]; exact ⟨_, _, rfl⟩
    · rw [if_neg h1]
      by_cases h2 : isValidEmail c.email = false
      · rw [if_pos h2]; exact ⟨_, _, rfl⟩
      · rw [if_neg h2]
        rw [if_pos (isValidPassword_invalid c.password h)]
        exact ⟨_, _, rfl⟩
  · rintro ⟨ha, hb, hc, hd⟩
    unfold isValidPassword
    rw [if_neg (by omega), if_neg (by simp [hb]), if_neg (by simp [hc]),
      if_neg (by simp [hd])]

/-- Witness for C9: a five-character password is rejected; the password
Abcdefg1 satisfies all four rules. -/
theorem claim9_register_password_witness :
    (∃ code msg,
      registerWithEmail ⟨"a@b.com".data, "short".data, "Jo".data⟩ =
        RegisterAction.reject code msg) ∧
    (isValidPassword ("Abcdefg1".data)).valid = true :=
  ⟨(claim9_register_password ⟨"a@b.com".data, "short".data, "Jo".data⟩).1
      (Or.inl (by decide)),
   (claim9_register_password ⟨"a@b.com".data, "Abcdefg1".data, "Jo".data⟩).2
      ⟨by decide, by decide, by decide, by decide⟩⟩

/-- The first element produced by dropping the non-`'@'` prefix is `'@'`. -/
theorem dropWhile_head_at (s : List Char) (a : Char) (d : List Char)
    (h : s.dropWhile (fun c => !(c == '@')) = a :: d) : a = '@' := by
  induction s with
  | nil => simp [List.dropWhile] at h
  | cons c cs ih =>
    rw [List.dropWhile_cons] at h
    by_cases hc : (!(c == '@')) = true
    · rw [if_pos hc] at h; exact ih h
    · rw [if_neg hc] at h
      have hc' : c = '@' := by
        have hb : (c == '@') = true := by
          cases hb : (c == '@')
          · rw [hb] at hc; simp at hc
          · rfl
        exact eq_of_beq hb
      injection h with h1 _
      rw [← h1]; exact hc'

/-- Soundness of the email matcher: a string accepted by `isValidEmail`
decomposes as the declarative `EmailPattern` requires. -/
theorem isValidEmail_sound (s : List Char) (h : isValidEmail s = true) :
    EmailPattern s := by
  unfold isValidEmail at h
  rcases hr : s.dropWhile (fun c => !(c == '@')) with _ | ⟨a, domain⟩
  · simp only [hr] at h
    exact absurd h (by simp)
  · simp only [hr, Bool.and_eq_true] at h
    obtain ⟨⟨⟨hne, hloc⟩, hdom⟩, hdot⟩ := h
    have ha : a = '@' := dropWhile_head_at s a domain hr
    have hmem : '.' ∈ (domain.drop 1).dropLast := by
      unfold hasInteriorDot at hdot
      simpa [List.contains, List.elem_iff] using hdot
    rcases hd : domain with _ | ⟨d0, dtail⟩
    · rw [hd] at hmem; simp at hmem
    · rw [hd] at hmem
      simp only [List.drop_succ_cons, List.drop_zero] at hmem
      have hdne : dtail ≠ [] := by
        rintro rfl; simp at hmem
      obtain ⟨a1, b1, hsplit⟩ := List.append_of_mem hmem
      have hlast := List.dropLast_append_getLast hdne
      rw [hsplit] at hlast
      have hdomAll : ∀ c ∈ domain, emailChar c = true := List.all_eq_true.mp hdom
      rw [hd] at hdomAll
      have hs := List.takeWhile_append_dropWhile (fun c => !(c == '@')) s
      rw [hr, hd] at hs
      refine ⟨s.takeWhile (fun c => !(c == '@')), d0 :: a1,
        b1 ++ [dtail.getLast hdne], ?_, by simp, by simp, ?_, ?_, ?_, ?_⟩
      · intro h0
        rw [h0] at hne; simp at hne
      · exact List.all_eq_true.mp hloc
      · intro x hx
        apply hdomAll
        rcases List.mem_cons.mp hx with hx | hx
        · rw [hx]; exact List.mem_cons_self d0 dtail
        · apply List.mem_cons_of_mem
          rw [← hlast]
          simp [hx]
      · intro x hx
        apply hdomAll
        apply List.mem_cons_of_mem
        rw [← hlast]
        rcases List.mem_append.mp hx with hx | hx
        · simp [hx]
        · simp at hx
          simp [hx]
      · have hjoin : (d0 :: a1) ++ '.' :: (b1 ++ [dtail.getLast hdne]) =
            d0 :: dtail := by
          conv_rhs => rw [← hlast]
          simp
        rw [ha] at hs
        rw [hjoin]
        exact hs.symm

/-- C10: a login whose email is empty, whose password is empty, or whose
email does not match the pattern (non-space non-`'@'` characters, `'@'`, such
characters, `'.'`, such characters) is rejected with a non-null error
(`user = null`) and never reaches the sign-in call. -/
theorem claim10_login_validation (c : LoginCredentials)
    (h : c.email = [] ∨ c.password = [] ∨ ¬ EmailPattern c.email) :
    ∃ code msg, loginWithEmail c = LoginAction.reject code msg := by
  unfold loginWithEmail
  by_cases h1 : c.email = [] ∨ c.password = []
  · rw [if_pos h1]; exact ⟨_, _, rfl⟩
  · rw [if_neg h1]
    have hp : ¬ EmailPattern c.email := by
      rcases h with h | h | h
      · exact absurd (Or.inl h) h1
      · exact absurd (Or.inr h) h1
      · exact h
    have hv : isValidEmail c.email = false := by
      cases hb : isValidEmail c.email
      · rfl
      · exact absurd (isValidEmail_sound c.email hb) hp
    rw [if_pos hv]
    exact ⟨_, _, rfl⟩

/-- Witness for C10: an empty email is rejected. -/
theorem claim10_login_validation_witness :
    ∃ code msg,
      loginWithEmail ⟨[], ['p']⟩ = LoginAction.reject code msg :=
  claim10_login_validation ⟨[], ['p']⟩ (Or.inl rfl)

end HouseMate
